import Mathlib

/-! Ghostbin: permission scopes, grant redemption and the render cache

A shallow embedding of `permissions.go` and of the grant and render parts of
`paste_controller.go`, with the properties of the specification stated over it.

Conventions of the embedding:

* a Go map is an association list with unique keys (`AList`); reading a missing
  key gives the zero value, as in Go;
* a method with a pointer receiver returns the updated receiver next to its
  Go result;
* a Go `error` result is an `Option String`, `none` standing for `nil`;
* collaborators that are interfaces in the sources (the account scope, the
  grant store, the formatting pipeline) are parameters.
-/

namespace Ghostbin

/-! ## Package model: identifiers and permissions -/

namespace model

/-- PasteID of package model, a string type. -/
abbrev PasteID := String

/-- GrantID of package model, a string type. -/
abbrev GrantID := String

/-- Permission of package model: an unsigned machine word used as a bitmask.
Its declaration is not among the sources, so the width `w` of the word is a
parameter; the value is kept below `2 ^ w`. -/
structure Permission (w : Nat) where
  bits : Nat
  lt : bits < 2 ^ w
deriving DecidableEq

namespace Permission

variable {w : Nat}

/-- The zero value of the type: no bit set. -/
def zero : Permission w := ⟨0, Nat.two_pow_pos w⟩

/-- Go `a & b`. -/
def and (a b : Permission w) : Permission w :=
  ⟨a.bits &&& b.bits, Nat.and_lt_two_pow _ b.lt⟩

/-- Go `a | b`. -/
def or (a b : Permission w) : Permission w :=
  ⟨a.bits ||| b.bits, Nat.or_lt_two_pow a.lt b.lt⟩

/-- Go `^a` on an unsigned word: exclusive or with the word of all ones. -/
def not (a : Permission w) : Permission w :=
  ⟨(2 ^ w - 1) ^^^ a.bits,
    Nat.xor_lt_two_pow (Nat.sub_lt (Nat.two_pow_pos w) Nat.one_pos) a.lt⟩

end Permission

/-- PermissionScope of package model: the interface `Has`, `Grant`, `Revoke`.
An implementation is a state type `U` with the three methods; `Grant` and
`Revoke` return their error and the state they leave. -/
structure PermissionScope (w : Nat) (U : Type) where
  Has : U → Permission w → Bool
  Grant : U → Permission w → Option String × U
  Revoke : U → Permission w → Option String × U

end model

open model

/-! ## permissions.go -/

/-- The type `map[model.PasteID]model.Permission`. -/
abbrev V3Entries (w : Nat) := AList (fun _ : PasteID => Permission w)

/-- Go map read `m[k]`: the stored value, or the zero value when `k` has no entry. -/
def V3Entries.get {w : Nat} (m : V3Entries w) (k : PasteID) : Permission w :=
  (m.lookup k).getD Permission.zero

/-- The struct `globalPermissionScope`; `uScope` is `none` for a nil interface. -/
structure globalPermissionScope (w : Nat) (U : Type) where
  pID : PasteID
  uScope : Option U
  v3Entries : V3Entries w

namespace globalPermissionScope

variable {w : Nat} {U : Type}

/-- The method `(g *globalPermissionScope) Has`. -/
def Has (S : PermissionScope w U) (g : globalPermissionScope w U) (p : Permission w) : Bool :=
  match g.uScope with
  | some u => S.Has u p
  | none => decide ((V3Entries.get g.v3Entries g.pID).and p = p)

/-- The method `(g *globalPermissionScope) Grant`. -/
def Grant (S : PermissionScope w U) (g : globalPermissionScope w U) (p : Permission w) :
    Option String × globalPermissionScope w U :=
  match g.uScope with
  | some u => ((S.Grant u p).1, { g with uScope := some (S.Grant u p).2 })
  | none =>
    (none, { g with v3Entries := g.v3Entries.insert g.pID ((V3Entries.get g.v3Entries g.pID).or p) })

/-- The method `(g *globalPermissionScope) Revoke`. -/
def Revoke (S : PermissionScope w U) (g : globalPermissionScope w U) (p : Permission w) :
    Option String × globalPermissionScope w U :=
  match g.uScope with
  | some u => ((S.Revoke u p).1, { g with uScope := some (S.Revoke u p).2 })
  | none =>
    let m := g.v3Entries.insert g.pID ((V3Entries.get g.v3Entries g.pID).and p.not)
    if V3Entries.get m g.pID = Permission.zero then
      (none, { g with v3Entries := m.erase g.pID })
    else
      (none, { g with v3Entries := m })

end globalPermissionScope

/-- The account scope of a requester who has none: never consulted. -/
def noAccount (w : Nat) : PermissionScope w Unit :=
  ⟨fun _ _ => false, fun _ _ => (none, ()), fun _ _ => (none, ())⟩

/-- One anonymous-path call on the session map: the scope of resource `R` is
built over the map with no account scope, as `GetPastePermissionScope` does
for a requester who is not logged in. -/
inductive AnonCall (w : Nat) where
  | grant (R : PasteID) (p : Permission w)
  | revoke (R : PasteID) (p : Permission w)

/-- The session map after one anonymous-path call. -/
def AnonCall.apply {w : Nat} (m : V3Entries w) : AnonCall w → V3Entries w
  | .grant R p => (globalPermissionScope.Grant (noAccount w) ⟨R, none, m⟩ p).2.v3Entries
  | .revoke R p => (globalPermissionScope.Revoke (noAccount w) ⟨R, none, m⟩ p).2.v3Entries

/-- The session map after a sequence of anonymous-path calls. -/
def AnonCall.run {w : Nat} (m : V3Entries w) (cs : List (AnonCall w)) : V3Entries w :=
  cs.foldl AnonCall.apply m

/-- A call that grants at least one bit, or revokes. -/
def AnonCall.grantsNonZero {w : Nat} : AnonCall w → Prop
  | .grant _ p => p ≠ Permission.zero
  | .revoke _ _ => True

/-- No entry of the map holds the zero mask. -/
def NoZeroEntry {w : Nat} (m : V3Entries w) : Prop :=
  ∀ k, m.lookup k ≠ some Permission.zero


/-! ## paste_controller.go: grant redemption -/

/-- Modelled from the spec: Grant of package model, whose declaration is not
among the sources: an opaque ID, the target resource and the granted bitmask. -/
structure model.Grant (w : Nat) where
  ID : GrantID
  resource : PasteID
  bits : Permission w
deriving DecidableEq

/-- The part of `model.Broker` that `grantAcceptHandler` uses: `GetGrant`,
`none` standing for a non-nil error. The interface has no method that destroys
a grant, and the handler calls no other method, so the store is read only. -/
abbrev GrantStore (w : Nat) := GrantID → Option (model.Grant w)

/-- What a handler reads of the request: the `grantkey` route variable, the
logged-in user (`GetUser`, as the account scope that `Permissions` returns for
each paste) and the `v3permissions` value of the session. -/
structure Request (w : Nat) (U : Type) where
  grantkey : String
  user : Option (PasteID → U)
  v3permissions : Option (V3Entries w)

/-- What a handler leaves: the status code, the body written, the paste the
`Location` header points to, the account scopes of the user, and the
`v3permissions` value of the session as it stands after the request. -/
structure Response (w : Nat) (U : Type) where
  status : Nat
  body : String
  location : Option PasteID
  user : Option (PasteID → U)
  v3permissions : Option (V3Entries w)

/-- The function `GetPastePermissionScope`: the account scope of the user for
the paste when there is a user, and the session map, a fresh one when the
session has none. -/
def GetPastePermissionScope {w : Nat} {U : Type} (pID : PasteID) (r : Request w U) :
    globalPermissionScope w U :=
  { pID := pID, uScope := r.user.map (fun perms => perms pID),
    v3Entries := r.v3permissions.getD ∅ }

/-- The handler `grantAcceptHandler`; `edit` is `model.PastePermissionEdit`.
The scope is built for the fixed paste `"ABCDE"` and the grant found is not
used, as in the source. -/
def grantAcceptHandler {w : Nat} {U : Type} (S : PermissionScope w U) (edit : Permission w)
    (grantStore : GrantStore w) (r : Request w U) : Response w U :=
  match grantStore r.grantkey with
  | none =>
    { status := 401, body := "Hey.", location := none, user := r.user,
      v3permissions := r.v3permissions }
  | some _ =>
    let pID : PasteID := "ABCDE"
    let g := (globalPermissionScope.Grant S (GetPastePermissionScope pID r) edit).2
    { status := 303, body := "", location := some pID,
      user := r.user.map (fun perms => Function.update perms pID (g.uScope.getD (perms pID))),
      v3permissions := some g.v3Entries }

/-! ## paste_controller.go: the render cache -/

/-- Instants of `time.Time`, as integers. -/
abbrev Time := Int

/-- What `renderPaste` and the formatting pipeline read of a `model.Paste`. -/
structure Paste where
  ID : PasteID
  ModificationTime : Time
  Encrypted : Bool
  LanguageName : String
  Body : String
deriving DecidableEq

/-- The struct `renderedPaste`. -/
structure renderedPaste where
  body : String
  renderTime : Time
deriving DecidableEq

/-- The constant `PASTE_CACHE_MAX_ENTRIES`. -/
def PASTE_CACHE_MAX_ENTRIES : Int := 1000

/-- Modelled from the spec: the bounded LRU cache (`lru.Cache` of groupcache,
outside the repository): entries with the most recently used first;
exceeding the capacity evicts the least recently used entry, and a capacity
of zero means no bound. -/
structure lru.Cache where
  MaxEntries : Int
  ll : List (PasteID × renderedPaste)

/-- The entry stored for a key, without touching the recency order. -/
def lru.Cache.peek (c : lru.Cache) (key : PasteID) : Option renderedPaste :=
  (c.ll.find? (fun e => decide (e.1 = key))).map (fun e => e.2)

/-- The method `Get`: the value of the key, which becomes the most recently used. -/
def lru.Cache.Get (c : lru.Cache) (key : PasteID) : Option renderedPaste × lru.Cache :=
  match c.ll.find? (fun e => decide (e.1 = key)) with
  | some e => (some e.2, { c with ll := e :: c.ll.eraseP (fun e => decide (e.1 = key)) })
  | none => (none, c)

/-- The method `Add`: an existing key gets the new value and becomes the most
recently used; a new key is put in front, and the oldest entry is removed
when the bound is exceeded. -/
def lru.Cache.Add (c : lru.Cache) (key : PasteID) (v : renderedPaste) : lru.Cache :=
  if c.ll.any (fun e => decide (e.1 = key)) then
    { c with ll := (key, v) :: c.ll.eraseP (fun e => decide (e.1 = key)) }
  else if c.MaxEntries ≠ 0 ∧ ((c.ll.length + 1 : Nat) : Int) > c.MaxEntries then
    { c with ll := ((key, v) :: c.ll).dropLast }
  else
    { c with ll := (key, v) :: c.ll }

/-- The entry of the global `renderCache.c` for a key; a nil cache has none. -/
def cached (c : Option lru.Cache) (key : PasteID) : Option renderedPaste :=
  match c with
  | some k => k.peek key
  | none => none

/-- The formatting pipeline `FormatPaste`: the output and the error, `none`
for nil. -/
abbrev Formatter := Paste → String × Option String

/-- The outcome of one `renderPaste` call: the HTML returned, the global
`renderCache.c` it leaves, and how many times it invoked `FormatPaste`. -/
structure Rendered where
  body : String
  c : Option lru.Cache
  formatCalls : Nat

/-- The placeholder returned when formatting fails. -/
def renderErrorHTML : String := "There was an error rendering this paste."

/-- The branch of `renderPaste` taken when no fresh entry was found: format,
and store the output unless formatting failed or the paste is encrypted.
`c` is the global cache after the lookup and `now` is what `time.Now()` gives
when the entry is stored. -/
def renderPaste.render (FormatPaste : Formatter) (now : Time) (c : Option lru.Cache)
    (p : Paste) : Rendered :=
  match FormatPaste p with
  | (_, some _) => { body := renderErrorHTML, c := c, formatCalls := 1 }
  | (out, none) =>
    if p.Encrypted then
      { body := out, c := c, formatCalls := 1 }
    else
      let k : lru.Cache := c.getD { MaxEntries := PASTE_CACHE_MAX_ENTRIES, ll := [] }
      { body := out, c := some (k.Add p.ID { body := out, renderTime := now }),
        formatCalls := 1 }

/-- The function `renderPaste`. -/
def renderPaste (FormatPaste : Formatter) (now : Time) (c : Option lru.Cache) (p : Paste) :
    Rendered :=
  match c with
  | none => renderPaste.render FormatPaste now none p
  | some k =>
    match (k.Get p.ID).1 with
    | none => renderPaste.render FormatPaste now (some (k.Get p.ID).2) p
    | some e =>
      if e.renderTime < p.ModificationTime then
        renderPaste.render FormatPaste now (some (k.Get p.ID).2) p
      else
        { body := e.body, c := some (k.Get p.ID).2, formatCalls := 0 }

/-- The global cache after a sequence of `renderPaste` calls, each with the
instant it stores and the paste as it is at that call. -/
def renderAll (FormatPaste : Formatter) (c : Option lru.Cache) (calls : List (Time × Paste)) :
    Option lru.Cache :=
  calls.foldl (fun c call => (renderPaste FormatPaste call.1 c call.2).c) c

/-! ## The ephemeral store -/

/-- What the handlers keep in the ephemeral store: nil, a pointer to an
`int32` attempt counter (the entry holds the pointee), a hash token (a
string), or a paste. -/
inductive EphValue where
  | nil
  | counter (n : Int)
  | token (s : String)
  | paste (p : Paste)
deriving DecidableEq

/-- Modelled from the spec: an entry of the ephemeral store, an opaque value
with its absolute expiry instant. -/
structure EphEntry where
  value : EphValue
  expiry : Time
deriving DecidableEq

/-- Modelled from the spec: the ephemeral store `ephStore`, a keyed cache
bounded by a time to live; its source is not among the files. -/
abbrev EphStore := AList (fun _ : String => EphEntry)

/-- Modelled from the spec: `Put(key, value, ttl)` stores the value, replacing
any prior entry of the key; it becomes unreadable once `ttl` has elapsed from
the call, made at `now`. -/
def EphStore.Put (s : EphStore) (now : Time) (key : String) (v : EphValue) (ttl : Int) :
    EphStore :=
  s.insert key { value := v, expiry := now + ttl }

/-- Modelled from the spec: `Get(key)` finds nothing for absent or expired
keys; `none` stands for `found = false`. -/
def EphStore.Get (s : EphStore) (now : Time) (key : String) : Option EphValue :=
  match s.lookup key with
  | some e => if now < e.expiry then some e.value else none
  | none => none

/-- Modelled from the spec: `Delete(key)` removes the entry at once. -/
def EphStore.Delete (s : EphStore) (key : String) : EphStore :=
  s.erase key

/-- A write through the counter pointer held by the entry of `key`: the
pointee changes, the expiry of the entry does not. -/
def EphStore.setPointee (s : EphStore) (key : String) (n : Int) : EphStore :=
  match s.lookup key with
  | some e => s.insert key { value := .counter n, expiry := e.expiry }
  | none => s

/-- The duration `time.Minute`, in nanoseconds. -/
def Minute : Int := 60000000000

/-- Go `n++` on an `int32`: the sum wraps around at `2 ^ 31`. -/
def incr32 (n : Int) : Int :=
  (n + 1 + 2 ^ 31) % 2 ^ 32 - 2 ^ 31

/-! ## paste_controller.go: authentication throttle -/

/-- The function `throttleAuthForRequest`, called at the instant `now` with the
source address `ip` (`SourceIPForRequest`) and the route variable `id`. The
result is the boolean returned and the store left; `none` is the panic of the
type assertion `v.(*int32)` on a value that is no counter. -/
def throttleAuthForRequest (s : EphStore) (now : Time) (ip id : String) :
    Option (Bool × EphStore) :=
  let tok := ip ++ "|" ++ id
  let start : Option (Int × EphStore) :=
    match EphStore.Get s now tok with
    | some (.counter n) => some (n, s)
    | some .nil => some (0, EphStore.Put s now tok (.counter 0) (1 * Minute))
    | none => some (0, EphStore.Put s now tok (.counter 0) (1 * Minute))
    | some _ => none
  match start with
  | none => none
  | some (n, s0) =>
    let s1 := EphStore.setPointee s0 tok (incr32 n)
    if 5 ≤ incr32 n then
      some (true, EphStore.Put s1 now tok (.counter (incr32 n)) (5 * Minute))
    else
      some (false, s1)

/-- The store that a call of `throttleAuthForRequest` leaves; a call that
panics leaves it as it was. -/
def throttleStore (s : EphStore) (now : Time) (ip id : String) : EphStore :=
  match throttleAuthForRequest s now ip id with
  | some r => r.2
  | none => s

/-- The booleans returned by consecutive calls of `throttleAuthForRequest` for
one source address and resource id, made at the given instants; `none` when a
call panics. -/
def throttleRun (s : EphStore) (ip id : String) : List Time → Option (List Bool)
  | [] => some []
  | t :: ts =>
    match throttleAuthForRequest s t ip id with
    | none => none
    | some r => (throttleRun r.2 ip id ts).map (fun bs => r.1 :: bs)

/-- The store after consecutive calls of `throttleAuthForRequest`. -/
def throttleStores (s : EphStore) (ip id : String) : List Time → EphStore
  | [] => s
  | t :: ts => throttleStores (throttleStore s t ip id) ip id ts

/-- Every call of the run finds an entry under the token that has not
expired. -/
def counterAlive (s : EphStore) (ip id : String) : List Time → Bool
  | [] => true
  | t :: ts =>
    (EphStore.Get s t (ip ++ "|" ++ id)).isSome
      && counterAlive (throttleStore s t ip id) ip id ts

/-- What `authenticatePastePOSTHandler` reads of the request: the source
address, the route variable `id`, the form value `password`, the
`paste_passphrases` value of the client session and the `destination` cookie. -/
structure AuthRequest where
  ip : String
  id : String
  password : String
  paste_passphrases : Option (AList (fun _ : PasteID => String))
  destination : Option String

/-- What `authenticatePastePOSTHandler` leaves: the status code and the error
rendered (none when it panics before writing), the paste the `Location`
header points to, the `paste_passphrases` value of the client session, and
whether the sessions were saved and whether the handler panicked. -/
structure AuthResponse where
  status : Option Nat
  error : Option String
  location : Option PasteID
  paste_passphrases : Option (AList (fun _ : PasteID => String))
  sessionSaved : Bool
  panicked : Bool

/-- The handler `authenticatePastePOSTHandler`. The destination cookie is read
in the branch `err != nil`, where the cookie is nil: the handler panics there
when the request carries no such cookie. -/
def authenticatePastePOSTHandler (s : EphStore) (now : Time) (r : AuthRequest) :
    AuthResponse × EphStore :=
  match throttleAuthForRequest s now r.ip r.id with
  | none =>
    ({ status := none, error := none, location := none,
       paste_passphrases := r.paste_passphrases, sessionSaved := false, panicked := true }, s)
  | some (true, s') =>
    ({ status := some 420, error := some "Cool it.", location := none,
       paste_passphrases := r.paste_passphrases, sessionSaved := false, panicked := false }, s')
  | some (false, s') =>
    let pasteKeys := (r.paste_passphrases.getD ∅).insert r.id r.password
    match r.destination with
    | none =>
      ({ status := none, error := none, location := none,
         paste_passphrases := some pasteKeys, sessionSaved := true, panicked := true }, s')
    | some _ =>
      ({ status := some 303, error := none, location := some r.id,
         paste_passphrases := some pasteKeys, sessionSaved := true, panicked := false }, s')

/-- The store after consecutive authentication attempts, each a request
handled by `authenticatePastePOSTHandler` at its instant. -/
def authAttempts (s : EphStore) (attempts : List (Time × AuthRequest)) : EphStore :=
  attempts.foldl (fun s a => (authenticatePastePOSTHandler s a.1 a.2).2) s

/-! ## paste_controller.go: creating and updating pastes -/

/-- The constant `PASTE_MAXIMUM_LENGTH`, a number of bytes. The type
`ByteSize` is not among the sources; sizes are natural numbers here. -/
def PASTE_MAXIMUM_LENGTH : Nat := 1048576

/-- The constant `MAX_EXPIRE_DURATION`, fifteen days in nanoseconds. -/
def MAX_EXPIRE_DURATION : Int := 15 * 24 * (60 * Minute)

/-- Go `len(s)` of a string: its number of bytes. -/
def len (s : String) : Nat := s.utf8ByteSize

/-- The errors the paste handlers render or panic with: a plain message
(`fmt.Errorf`), `PasteTooLargeError` with the size, an error of the store. -/
inductive HandlerError where
  | message (text : String)
  | PasteTooLargeError (size : Nat)
  | store (text : String)
deriving DecidableEq

/-- How a paste handler ends: `RenderError(err, status, w)`, a redirect to
`pasteURL(route, id)` with a status, or a panic. -/
inductive Outcome where
  | rendered (err : HandlerError) (status : Nat)
  | redirect (status : Nat) (route : String) (id : PasteID)
  | panicked (err : HandlerError)
deriving DecidableEq

/-- The calls that change a collaborator: the paste store, a paste and its
writer, the expirator, the session store. -/
inductive Call where
  | CreatePaste
  | CreateEncryptedPaste (password : String)
  | Writer (id : PasteID)
  | Write (id : PasteID) (body : String)
  | SetLanguageName (id : PasteID) (lang : String)
  | SetExpiration (id : PasteID) (expire : String)
  | SetTitle (id : PasteID) (title : String)
  | Close (id : PasteID)
  | ExpireObject (id : PasteID) (dur : Int)
  | CancelObjectExpiration (id : PasteID)
  | SessionsSave
deriving DecidableEq

/-- The state the paste handlers can change: the ephemeral store, the account
scopes of the user and the `v3permissions` map of the session, the
`paste_passphrases` map of the client session, and the calls made so far on
the other collaborators, oldest first. -/
structure World (w : Nat) (U : Type) where
  ephStore : EphStore
  user : Option (PasteID → U)
  v3permissions : Option (V3Entries w)
  paste_passphrases : Option (AList (fun _ : PasteID => String))
  calls : List Call

/-- What the paste handlers read of the request: the form values, the source
address and whether the request came over HTTPS. -/
structure PasteForm where
  text : String
  lang : String
  expire : String
  title : String
  password : String
  sourceIP : String
  https : Bool

/-- The functions the paste handlers call that are outside the sources, with
the answers they give during the request: `strings.TrimSpace`, whether
`Env()` is not the development environment, the base32 MD5 digest of a body,
the two constructors of the paste store, `GetLanguageName` of a paste as the
paste is during the request (a paste is a reference: one found in the
ephemeral store may have changed since it was put there),
`formatting.LanguageNamed` (the ID of the language, none for a nil pointer),
`ParseDuration` and `ObjectHasExpiration`. -/
structure Collaborators where
  TrimSpace : String → String
  production : Bool
  digest : String → String
  CreatePaste : Except String Paste
  CreateEncryptedPaste : String → Except String Paste
  GetLanguageName : PasteID → String
  LanguageNamed : String → Option String
  ParseDuration : String → Int
  ObjectHasExpiration : PasteID → Bool

/-- The method `pasteUpdateCore`, run at the instant `now` on the paste `p`. -/
def pasteUpdateCore {w : Nat} {U : Type} (K : Collaborators) (now : Time) (W : World w U)
    (p : Paste) (f : PasteForm) (newPaste : Bool) : Outcome × World w U :=
  if len (K.TrimSpace f.text) = 0 then
    (.redirect 302 "delete" p.ID, W)
  else if len f.text > PASTE_MAXIMUM_LENGTH then
    (.panicked (.PasteTooLargeError (len f.text)), W)
  else
    let eph : EphStore :=
      if newPaste then W.ephStore
      else
        match EphStore.Get W.ephStore now ("P|H|" ++ p.ID) with
        | some (.token hash) =>
          EphStore.Delete (EphStore.Delete W.ephStore hash) ("P|H|" ++ p.ID)
        | _ => W.ephStore
    let lang : Option String :=
      if f.lang ≠ "" then K.LanguageNamed f.lang
      else K.LanguageNamed (K.GetLanguageName p.ID)
    let setLang : List Call :=
      match lang with
      | some l => [.SetLanguageName p.ID l]
      | none => []
    let expire : List Call :=
      if f.expire ≠ "" ∧ f.expire ≠ "-1" then
        [.ExpireObject p.ID
          (if K.ParseDuration f.expire > MAX_EXPIRE_DURATION then MAX_EXPIRE_DURATION
           else K.ParseDuration f.expire)]
      else if f.expire = "-1" ∧ K.ObjectHasExpiration p.ID = true then
        [.CancelObjectExpiration p.ID]
      else []
    (.redirect 303 "show" p.ID,
      { W with
        ephStore := eph
        calls := W.calls ++ [.Writer p.ID, .Write p.ID f.text] ++ setLang ++ expire
          ++ [.SetExpiration p.ID f.expire, .SetTitle p.ID f.title, .Close p.ID] })

/-- The end of `pasteCreate`, once the paste `p` exists: all permissions are
granted on it, the sessions are saved, and `pasteUpdateCore` writes it. `all`
is `model.PastePermissionAll`. -/
def pasteCreate.finish {w : Nat} {U : Type} (K : Collaborators) (S : PermissionScope w U)
    (all : Permission w) (now : Time) (W : World w U) (p : Paste) (f : PasteForm) :
    Outcome × World w U :=
  let g := (globalPermissionScope.Grant S
    (GetPastePermissionScope p.ID
      { grantkey := "", user := W.user, v3permissions := W.v3permissions }) all).2
  let saved : List Call := if W.user.isNone then [.SessionsSave] else []
  pasteUpdateCore K now
    { W with
      user := W.user.map
        (fun perms => Function.update perms p.ID (g.uScope.getD (perms p.ID)))
      v3permissions := some g.v3Entries
      calls := W.calls ++ saved ++ [.SessionsSave] }
    p f true

/-- The handler `pasteCreate`, run at the instant `now`. -/
def pasteCreate {w : Nat} {U : Type} (K : Collaborators) (S : PermissionScope w U)
    (all : Permission w) (now : Time) (W : World w U) (f : PasteForm) :
    Outcome × World w U :=
  if len (K.TrimSpace f.text) = 0 then
    (.rendered (.message "Hey, put some text in that paste.") 400, W)
  else if len f.text > PASTE_MAXIMUM_LENGTH then
    (.rendered (.PasteTooLargeError (len f.text)) 400, W)
  else if f.password ≠ "" ∧ (K.production = true ∧ f.https = false) then
    (.rendered (.message "I refuse to accept passwords over HTTP.") 400, W)
  else if f.password = "" then
    match EphStore.Get W.ephStore now ("H|" ++ f.sourceIP ++ "|" ++ K.digest f.text) with
    | some (.paste hashedPaste) => pasteUpdateCore K now W hashedPaste f true
    | _ =>
      match K.CreatePaste with
      | .error e => (.panicked (.store e), { W with calls := W.calls ++ [.CreatePaste] })
      | .ok p =>
        pasteCreate.finish K S all now
          { W with
            ephStore :=
              EphStore.Put
                (EphStore.Put W.ephStore now
                  ("H|" ++ f.sourceIP ++ "|" ++ K.digest f.text) (.paste p) (5 * Minute))
                now ("P|H|" ++ p.ID)
                (.token ("H|" ++ f.sourceIP ++ "|" ++ K.digest f.text)) (5 * Minute)
            calls := W.calls ++ [.CreatePaste] }
          p f
  else
    match K.CreateEncryptedPaste f.password with
    | .error e =>
      (.panicked (.store e),
        { W with calls := W.calls ++ [.CreateEncryptedPaste f.password] })
    | .ok p =>
      pasteCreate.finish K S all now
        { W with
          paste_passphrases := some ((W.paste_passphrases.getD ∅).insert p.ID f.password)
          calls := W.calls ++ [.CreateEncryptedPaste f.password] }
        p f

/-! ## Sample values -/

/-- Collaborators for the examples: trimming removes the white space of
`Char.isWhitespace` at both ends, the digest is the body itself, the store
hands out the paste `"new"`, and every language is known by its name. -/
def sampleCollaborators : Collaborators where
  TrimSpace := fun s =>
    String.mk (((s.data.dropWhile Char.isWhitespace).reverse.dropWhile
      Char.isWhitespace).reverse)
  production := true
  digest := fun s => s
  CreatePaste := .ok ⟨"new", 0, false, "text", ""⟩
  CreateEncryptedPaste := fun _ => .ok ⟨"new", 0, true, "text", ""⟩
  GetLanguageName := fun _ => "text"
  LanguageNamed := fun name => some name
  ParseDuration := fun _ => 0
  ObjectHasExpiration := fun _ => false

/-- A world for the examples: nothing stored, no user, no call made. -/
def sampleWorld : World 32 Unit :=
  { ephStore := ∅, user := none, v3permissions := none, paste_passphrases := none,
    calls := [] }

/-- A formatting pipeline for the examples: it fails on an empty body and
wraps any other body. -/
def sampleFormat : Formatter := fun p =>
  if p.Body = "" then ("", some "nothing to format") else ("<pre>" ++ p.Body ++ "</pre>", none)

/-- A grant store for the examples, holding one grant: `"k1"` gives the bit 1
on the paste `"XYZ"`. -/
def sampleGrants : GrantStore 32 := fun id =>
  if id = "k1" then some { ID := "k1", resource := "XYZ", bits := ⟨1, by decide⟩ } else none

/-- A render cache for the examples: one entry, for the paste `"a"`,
rendered at the instant 1. -/
def sampleStale : Option lru.Cache :=
  some { MaxEntries := PASTE_CACHE_MAX_ENTRIES,
         ll := [("a", { body := "<pre>old</pre>", renderTime := 1 })] }

/-- The value of `model.PastePermissionEdit` in the examples. -/
def sampleEdit : Permission 32 := ⟨2, by decide⟩

/-! ## Predicates of the statements -/

/-- The global cache after the lookup that opens `renderPaste`: the same
entries, the key looked up moved to the front. -/
def afterLookup (c : Option lru.Cache) (key : PasteID) : Option lru.Cache :=
  c.map (fun k => (k.Get key).2)

/-- Every key of the cache is a paste that `enc` marks as not encrypted. -/
def onlyPlainKeys (enc : PasteID → Bool) (c : Option lru.Cache) : Prop :=
  ∀ k, c = some k → ∀ e ∈ k.ll, enc e.1 = false

/-- The bound of the cache, when there is one, is not negative. -/
def boundOK (c : Option lru.Cache) : Prop :=
  ∀ k, c = some k → 0 ≤ k.MaxEntries

/-- The cache holds no entry for the paste that is as recent as its last
modification: the next `renderPaste` of the paste has to format it. -/
def noFreshEntry (c : Option lru.Cache) (p : Paste) : Prop :=
  ∀ e, cached c p.ID = some e → e.renderTime < p.ModificationTime

/-! ## Bit-level facts -/

theorem Permission.ext_bits {w : Nat} {a b : Permission w} (h : a.bits = b.bits) : a = b := by
  cases a; cases b; simp_all

theorem Permission.or_and_self {w : Nat} (m p : Permission w) : (m.or p).and p = p := by
  apply Permission.ext_bits
  show (m.bits ||| p.bits) &&& p.bits = p.bits
  apply Nat.eq_of_testBit_eq
  intro i
  simp only [Nat.testBit_and, Nat.testBit_or]
  cases m.bits.testBit i <;> cases p.bits.testBit i <;> rfl

theorem Permission.and_not_and_self {w : Nat} (m p : Permission w) :
    ((m.and p.not).and p) = Permission.zero := by
  apply Permission.ext_bits
  show (m.bits &&& ((2 ^ w - 1) ^^^ p.bits)) &&& p.bits = 0
  apply Nat.eq_of_testBit_eq
  intro i
  simp only [Nat.testBit_and, Nat.testBit_xor, Nat.testBit_two_pow_sub_one, Nat.zero_testBit]
  by_cases hi : i < w
  · simp [hi]
  · have : p.bits.testBit i = false :=
      Nat.testBit_lt_two_pow (lt_of_lt_of_le p.lt (Nat.pow_le_pow_right (by decide) (not_lt.mp hi)))
    simp [this]

/-! ## Reading the anonymous map after a call -/

section anon
variable {w : Nat} {U : Type} (S : PermissionScope w U)

theorem get_insert_self (m : V3Entries w) (k : PasteID) (v : Permission w) :
    V3Entries.get (m.insert k v) k = v := by
  simp [V3Entries.get, AList.lookup_insert]

theorem Grant_anon (g : globalPermissionScope w U) (h : g.uScope = none) (p : Permission w) :
    globalPermissionScope.Grant S g p =
      (none, { g with v3Entries :=
        g.v3Entries.insert g.pID ((V3Entries.get g.v3Entries g.pID).or p) }) := by
  unfold globalPermissionScope.Grant
  rw [h]

theorem Revoke_anon (g : globalPermissionScope w U) (h : g.uScope = none) (p : Permission w) :
    globalPermissionScope.Revoke S g p =
      (none, { g with v3Entries :=
        if (V3Entries.get g.v3Entries g.pID).and p.not = Permission.zero then
          (g.v3Entries.insert g.pID ((V3Entries.get g.v3Entries g.pID).and p.not)).erase g.pID
        else g.v3Entries.insert g.pID ((V3Entries.get g.v3Entries g.pID).and p.not) }) := by
  unfold globalPermissionScope.Revoke
  rw [h]
  simp only [get_insert_self]
  split <;> rfl

theorem Has_anon (g : globalPermissionScope w U) (h : g.uScope = none) (p : Permission w) :
    globalPermissionScope.Has S g p = decide ((V3Entries.get g.v3Entries g.pID).and p = p) := by
  unfold globalPermissionScope.Has
  rw [h]

theorem get_Revoke_anon (g : globalPermissionScope w U) (h : g.uScope = none) (p : Permission w) :
    V3Entries.get (globalPermissionScope.Revoke S g p).2.v3Entries g.pID =
      (V3Entries.get g.v3Entries g.pID).and p.not := by
  rw [Revoke_anon S g h p]
  dsimp only
  split
  · next hz => rw [hz]; simp [V3Entries.get, AList.lookup_erase]
  · exact get_insert_self _ _ _

theorem get_Grant_anon (g : globalPermissionScope w U) (h : g.uScope = none) (p : Permission w) :
    V3Entries.get (globalPermissionScope.Grant S g p).2.v3Entries g.pID =
      (V3Entries.get g.v3Entries g.pID).or p := by
  rw [Grant_anon S g h p]
  exact get_insert_self _ _ _

theorem Permission.or_ne_zero (m p : Permission w) (hp : p ≠ Permission.zero) :
    m.or p ≠ Permission.zero := by
  intro h
  apply hp
  have hb : m.bits ||| p.bits = 0 := congrArg Permission.bits h
  apply Permission.ext_bits
  show p.bits = 0
  apply Nat.eq_of_testBit_eq
  intro i
  have := congrArg (fun n => Nat.testBit n i) hb
  simp only [Nat.testBit_or, Nat.zero_testBit, Bool.or_eq_false_iff] at this
  simpa using this.2

theorem NoZeroEntry_apply (m : V3Entries w) (c : AnonCall w) (hm : NoZeroEntry m)
    (hc : c.grantsNonZero) : NoZeroEntry (AnonCall.apply m c) := by
  intro k
  cases c with
  | grant R p =>
    have hp : p ≠ Permission.zero := hc
    show AList.lookup k (globalPermissionScope.Grant (noAccount w) ⟨R, none, m⟩ p).2.v3Entries
      ≠ some Permission.zero
    rw [Grant_anon _ _ rfl]
    dsimp only
    by_cases hk : k = R
    · subst hk
      rw [AList.lookup_insert]
      intro h
      exact Permission.or_ne_zero _ p hp (Option.some.inj h)
    · rw [AList.lookup_insert_ne hk]
      exact hm k
  | revoke R p =>
    show AList.lookup k (globalPermissionScope.Revoke (noAccount w) ⟨R, none, m⟩ p).2.v3Entries
      ≠ some Permission.zero
    rw [Revoke_anon _ _ rfl]
    dsimp only
    by_cases hk : k = R
    · subst hk
      split
      · rw [AList.lookup_erase]
        exact Option.noConfusion
      · next hz =>
        rw [AList.lookup_insert]
        intro h
        exact hz (Option.some.inj h)
    · split
      · rw [AList.lookup_erase_ne hk, AList.lookup_insert_ne hk]
        exact hm k
      · rw [AList.lookup_insert_ne hk]
        exact hm k

end anon

/-! ## Permission scope: the claims -/

/-- C1. Precedence: when the account scope is present, `Has`, `Grant` and
`Revoke` return what the account scope returns, its error included, whatever
the anonymous map holds, and the anonymous map is left as it was. -/
theorem C1_account_scope_takes_precedence {w : Nat} {U : Type} (S : PermissionScope w U)
    (R : PasteID) (u : U) (m : V3Entries w) (p : Permission w) :
    globalPermissionScope.Has S ⟨R, some u, m⟩ p = S.Has u p
    ∧ globalPermissionScope.Grant S ⟨R, some u, m⟩ p
        = ((S.Grant u p).1, ⟨R, some (S.Grant u p).2, m⟩)
    ∧ globalPermissionScope.Revoke S ⟨R, some u, m⟩ p
        = ((S.Revoke u p).1, ⟨R, some (S.Revoke u p).2, m⟩) :=
  ⟨rfl, rfl, rfl⟩

/-- C2. On the anonymous path `Grant B` returns no error and `Has B` is true
right after it, for every resource, prior map and bitmask. -/
theorem C2_grant_then_has {w : Nat} {U : Type} (S : PermissionScope w U)
    (R : PasteID) (m : V3Entries w) (B : Permission w) :
    (globalPermissionScope.Grant S ⟨R, none, m⟩ B).1 = none
    ∧ globalPermissionScope.Has S (globalPermissionScope.Grant S ⟨R, none, m⟩ B).2 B = true := by
  refine ⟨rfl, ?_⟩
  have hg : (globalPermissionScope.Grant S ⟨R, none, m⟩ B).2.uScope = none := rfl
  rw [Has_anon S _ hg]
  have := get_Grant_anon S ⟨R, none, m⟩ rfl B
  have hp : (globalPermissionScope.Grant S ⟨R, none, m⟩ B).2.pID = R := rfl
  rw [hp, this]
  simp [Permission.or_and_self]

/-- C3, as stated, fails for the empty bitmask: after `Grant 0` and `Revoke 0`
on an empty map, `Has 0` is true. -/
theorem C3_counterexample_empty_mask :
    globalPermissionScope.Has (noAccount 32)
      (globalPermissionScope.Revoke (noAccount 32)
        (globalPermissionScope.Grant (noAccount 32) ⟨"R", none, ∅⟩ Permission.zero).2
        Permission.zero).2 Permission.zero = true := by
  decide

/-- C3, amended. On the anonymous path, for every resource, prior map and
bitmask `B` with at least one bit set, `Has B` is false after `Grant B`
followed by `Revoke B`. -/
theorem C3_grant_revoke_then_not_has {w : Nat} {U : Type} (S : PermissionScope w U)
    (R : PasteID) (m : V3Entries w) (B : Permission w) (hB : B ≠ Permission.zero) :
    globalPermissionScope.Has S
      (globalPermissionScope.Revoke S (globalPermissionScope.Grant S ⟨R, none, m⟩ B).2 B).2 B
      = false := by
  have hg : (globalPermissionScope.Grant S ⟨R, none, m⟩ B).2.uScope = none := rfl
  have hr : (globalPermissionScope.Revoke S
      (globalPermissionScope.Grant S ⟨R, none, m⟩ B).2 B).2.uScope = none := by
    rw [Revoke_anon S _ hg]
    exact hg
  rw [Has_anon S _ hr]
  have hp : (globalPermissionScope.Revoke S
      (globalPermissionScope.Grant S ⟨R, none, m⟩ B).2 B).2.pID
        = (globalPermissionScope.Grant S ⟨R, none, m⟩ B).2.pID := by
    rw [Revoke_anon S _ hg]
  rw [hp, get_Revoke_anon S _ hg, Permission.and_not_and_self]
  simpa using fun h => hB h.symm

/-- Witness of C3 amended: the one-bit mask 2 on an empty 32-bit map. -/
theorem C3_grant_revoke_then_not_has_witness :
    (⟨2, by decide⟩ : Permission 32) ≠ Permission.zero
    ∧ globalPermissionScope.Has (noAccount 32)
      (globalPermissionScope.Revoke (noAccount 32)
        (globalPermissionScope.Grant (noAccount 32) ⟨"R", none, ∅⟩ ⟨2, by decide⟩).2
        ⟨2, by decide⟩).2 ⟨2, by decide⟩ = false :=
  ⟨by decide, C3_grant_revoke_then_not_has (noAccount 32) "R" ∅ ⟨2, by decide⟩ (by decide)⟩

/-- C4. On the anonymous path `Revoke p` returns no error; with `m₀` the mask
stored for the resource before the call (zero when it has no entry), the
resource is left with no entry when `m₀ AND NOT p` is zero and mapped to
`m₀ AND NOT p` otherwise. -/
theorem C4_revoke_clears_and_deletes {w : Nat} {U : Type} (S : PermissionScope w U)
    (R : PasteID) (m : V3Entries w) (p : Permission w) :
    (globalPermissionScope.Revoke S ⟨R, none, m⟩ p).1 = none
    ∧ (globalPermissionScope.Revoke S ⟨R, none, m⟩ p).2.v3Entries.lookup R =
        if (V3Entries.get m R).and p.not = Permission.zero then none
        else some ((V3Entries.get m R).and p.not) := by
  rw [Revoke_anon S _ rfl]
  refine ⟨rfl, ?_⟩
  dsimp only
  split
  · rw [AList.lookup_erase]
  · rw [AList.lookup_insert]

/-- C5, as stated, fails: granting the empty bitmask on a resource without an
entry stores a zero mask for it. -/
theorem C5_counterexample_grant_empty_mask :
    NoZeroEntry (∅ : V3Entries 32)
    ∧ ¬ NoZeroEntry (AnonCall.run (∅ : V3Entries 32) [.grant "R" Permission.zero]) := by
  refine ⟨fun k => by simp, fun h => h "R" (by decide)⟩

/-- C5, amended. If the anonymous map holds no zero mask, it holds none after
any sequence of anonymous-path `Grant` and `Revoke` calls, on any resources,
in which every granted bitmask has at least one bit set (revoked bitmasks are
arbitrary). -/
theorem C5_no_zero_entry_preserved {w : Nat} (m : V3Entries w) (cs : List (AnonCall w))
    (hm : NoZeroEntry m) (hcs : ∀ c ∈ cs, c.grantsNonZero) :
    NoZeroEntry (AnonCall.run m cs) := by
  induction cs generalizing m with
  | nil => exact hm
  | cons c cs ih =>
    exact ih (AnonCall.apply m c)
      (NoZeroEntry_apply m c hm (hcs c (List.mem_cons_self c cs)))
      (fun d hd => hcs d (List.mem_cons_of_mem c hd))

/-- Witness of C5 amended: on an empty map, the edit bit is granted on `"R"`,
revoked again, and granted on `"Q"`. -/
theorem C5_no_zero_entry_preserved_witness :
    NoZeroEntry (∅ : V3Entries 32)
    ∧ NoZeroEntry (AnonCall.run (∅ : V3Entries 32)
        [.grant "R" sampleEdit, .revoke "R" sampleEdit, .grant "Q" sampleEdit]) :=
  ⟨fun k => by simp,
    C5_no_zero_entry_preserved ∅
      [.grant "R" sampleEdit, .revoke "R" sampleEdit, .grant "Q" sampleEdit]
      (fun k => by simp)
      (by
        intro c hc
        simp only [List.mem_cons, List.mem_singleton, List.not_mem_nil, or_false] at hc
        rcases hc with rfl | rfl | rfl
        · show sampleEdit ≠ Permission.zero
          decide
        · trivial
        · show sampleEdit ≠ Permission.zero
          decide)⟩


/-! ## The LRU cache -/

theorem lru_Get_fst (k : lru.Cache) (key : PasteID) : (k.Get key).1 = k.peek key := by
  unfold lru.Cache.Get lru.Cache.peek
  cases List.find? (fun e => decide (e.1 = key)) k.ll <;> rfl

theorem find?_eraseP_ne (l : List (PasteID × renderedPaste)) (key key' : PasteID)
    (h : key' ≠ key) :
    List.find? (fun e => decide (e.1 = key')) (l.eraseP (fun e => decide (e.1 = key)))
      = List.find? (fun e => decide (e.1 = key')) l := by
  induction l with
  | nil => rfl
  | cons a l ih =>
    by_cases ha : a.1 = key
    · simp [List.eraseP_cons, ha, List.find?_cons, Ne.symm h]
    · simp only [List.eraseP_cons, ha, decide_False, List.find?_cons]
      by_cases hb : a.1 = key'
      · simp [hb]
      · simp [hb, ih]

theorem lru_Get_peek (k : lru.Cache) (key key' : PasteID) :
    (k.Get key).2.peek key' = k.peek key' := by
  unfold lru.Cache.Get lru.Cache.peek
  cases hf : List.find? (fun e => decide (e.1 = key)) k.ll with
  | none => rfl
  | some e =>
    have he : e.1 = key := by simpa using List.find?_some hf
    by_cases hk : key' = key
    · subst hk
      simp [List.find?_cons, he, hf]
    · have : e.1 ≠ key' := by
        rw [he]
        exact Ne.symm hk
      simp [List.find?_cons, this, find?_eraseP_ne _ _ _ hk]

theorem lru_Get_MaxEntries (k : lru.Cache) (key : PasteID) :
    (k.Get key).2.MaxEntries = k.MaxEntries := by
  unfold lru.Cache.Get
  cases List.find? (fun e => decide (e.1 = key)) k.ll <;> rfl

theorem lru_Get_mem (k : lru.Cache) (key : PasteID) (e : PasteID × renderedPaste)
    (h : e ∈ (k.Get key).2.ll) : e ∈ k.ll := by
  unfold lru.Cache.Get at h
  cases hf : List.find? (fun e => decide (e.1 = key)) k.ll with
  | none => simpa [hf] using h
  | some a =>
    simp only [hf, List.mem_cons] at h
    rcases h with h | h
    · exact h ▸ List.mem_of_find?_eq_some hf
    · exact List.mem_of_mem_eraseP h

theorem lru_Add_MaxEntries (k : lru.Cache) (key : PasteID) (v : renderedPaste) :
    (k.Add key v).MaxEntries = k.MaxEntries := by
  unfold lru.Cache.Add
  split
  · rfl
  · split <;> rfl

theorem lru_Add_peek_self (k : lru.Cache) (key : PasteID) (v : renderedPaste)
    (hk : 0 ≤ k.MaxEntries) : (k.Add key v).peek key = some v := by
  unfold lru.Cache.Add lru.Cache.peek
  split
  · simp [List.find?_cons]
  · split
    · next h =>
      cases hl : k.ll with
      | nil =>
        rw [hl] at h
        simp at h
        omega
      | cons a l => simp [List.dropLast, List.find?_cons]
    · simp [List.find?_cons]

theorem lru_Add_mem (k : lru.Cache) (key : PasteID) (v : renderedPaste)
    (e : PasteID × renderedPaste) (h : e ∈ (k.Add key v).ll) : e.1 = key ∨ e ∈ k.ll := by
  unfold lru.Cache.Add at h
  split at h
  · simp only [List.mem_cons] at h
    rcases h with h | h
    · exact Or.inl (by rw [h])
    · exact Or.inr (List.mem_of_mem_eraseP h)
  · split at h
    · have h' := List.dropLast_subset _ h
      simp only [List.mem_cons] at h'
      rcases h' with h' | h'
      · exact Or.inl (by rw [h'])
      · exact Or.inr h'
    · simp only [List.mem_cons] at h
      rcases h with h | h
      · exact Or.inl (by rw [h])
      · exact Or.inr h


/-! ## renderPaste: which branch is taken -/

theorem cached_afterLookup (c : Option lru.Cache) (key key' : PasteID) :
    cached (afterLookup c key) key' = cached c key' := by
  cases c with
  | none => rfl
  | some k => exact lru_Get_peek k key key'

theorem boundOK_afterLookup (c : Option lru.Cache) (key : PasteID) (h : boundOK c) :
    boundOK (afterLookup c key) := by
  cases c with
  | none => exact h
  | some k =>
    intro k' hk'
    have : k' = (k.Get key).2 := (Option.some.inj hk').symm
    rw [this, lru_Get_MaxEntries]
    exact h k rfl

theorem renderPaste_of_noFreshEntry (F : Formatter) (now : Time) (c : Option lru.Cache)
    (p : Paste) (h : noFreshEntry c p) :
    renderPaste F now c p = renderPaste.render F now (afterLookup c p.ID) p := by
  cases c with
  | none => rfl
  | some k =>
    unfold renderPaste
    dsimp only
    rw [lru_Get_fst]
    cases hpk : k.peek p.ID with
    | none => rfl
    | some e =>
      have : e.renderTime < p.ModificationTime := h e hpk
      simp [this, afterLookup]

theorem renderPaste_of_fresh (F : Formatter) (now : Time) (c : Option lru.Cache)
    (p : Paste) (e : renderedPaste) (he : cached c p.ID = some e)
    (hfresh : ¬ e.renderTime < p.ModificationTime) :
    renderPaste F now c p = { body := e.body, c := afterLookup c p.ID, formatCalls := 0 } := by
  cases c with
  | none => exact Option.noConfusion he
  | some k =>
    have hpk : k.peek p.ID = some e := he
    unfold renderPaste
    dsimp only
    rw [lru_Get_fst, hpk]
    simp [hfresh, afterLookup]

theorem render_of_error (F : Formatter) (now : Time) (c : Option lru.Cache) (p : Paste)
    (out err : String) (hF : F p = (out, some err)) :
    renderPaste.render F now c p = { body := renderErrorHTML, c := c, formatCalls := 1 } := by
  unfold renderPaste.render
  rw [hF]

theorem render_of_encrypted (F : Formatter) (now : Time) (c : Option lru.Cache) (p : Paste)
    (out : String) (hF : F p = (out, none)) (henc : p.Encrypted = true) :
    renderPaste.render F now c p = { body := out, c := c, formatCalls := 1 } := by
  unfold renderPaste.render
  rw [hF]
  simp [henc]

theorem render_of_plain (F : Formatter) (now : Time) (c : Option lru.Cache) (p : Paste)
    (out : String) (hF : F p = (out, none)) (henc : p.Encrypted = false) :
    renderPaste.render F now c p =
      { body := out,
        c := some ((c.getD { MaxEntries := PASTE_CACHE_MAX_ENTRIES, ll := [] }).Add p.ID
          { body := out, renderTime := now }),
        formatCalls := 1 } := by
  unfold renderPaste.render
  rw [hF]
  simp [henc]

theorem render_formatCalls (F : Formatter) (now : Time) (c : Option lru.Cache) (p : Paste) :
    (renderPaste.render F now c p).formatCalls = 1 := by
  rcases hF : F p with ⟨out, _ | err⟩
  · cases henc : p.Encrypted
    · rw [render_of_plain F now c p out hF henc]
    · rw [render_of_encrypted F now c p out hF henc]
  · rw [render_of_error F now c p out err hF]

theorem getD_bound (c : Option lru.Cache) (h : boundOK c) :
    0 ≤ (c.getD { MaxEntries := PASTE_CACHE_MAX_ENTRIES, ll := [] }).MaxEntries := by
  cases c with
  | none => decide
  | some k => exact h k rfl

/-- A render that finds no fresh entry, of a paste that is not encrypted and
formats: one pipeline call, the output returned and stored with the instant. -/
theorem renderPaste_stores (F : Formatter) (now : Time) (c : Option lru.Cache) (p : Paste)
    (out : String) (hc : boundOK c) (h : noFreshEntry c p) (hF : F p = (out, none))
    (henc : p.Encrypted = false) :
    (renderPaste F now c p).formatCalls = 1 ∧ (renderPaste F now c p).body = out
    ∧ cached (renderPaste F now c p).c p.ID = some { body := out, renderTime := now }
    ∧ boundOK (renderPaste F now c p).c := by
  rw [renderPaste_of_noFreshEntry F now c p h, render_of_plain F now _ p out hF henc]
  have hb := getD_bound _ (boundOK_afterLookup c p.ID hc)
  refine ⟨rfl, rfl, lru_Add_peek_self _ _ _ hb, ?_⟩
  intro k hk
  have : k = _ := (Option.some.inj hk).symm
  rw [this, lru_Add_MaxEntries]
  exact hb

/-- A render that finds a fresh entry: no pipeline call, the stored body
returned, the entries as they were. -/
theorem renderPaste_hit (F : Formatter) (now : Time) (c : Option lru.Cache) (p : Paste)
    (e : renderedPaste) (hc : boundOK c) (he : cached c p.ID = some e)
    (hfresh : ¬ e.renderTime < p.ModificationTime) :
    (renderPaste F now c p).formatCalls = 0 ∧ (renderPaste F now c p).body = e.body
    ∧ (∀ key, cached (renderPaste F now c p).c key = cached c key)
    ∧ boundOK (renderPaste F now c p).c := by
  rw [renderPaste_of_fresh F now c p e he hfresh]
  exact ⟨rfl, rfl, fun key => cached_afterLookup c p.ID key, boundOK_afterLookup c p.ID hc⟩


theorem render_c_of_encrypted (F : Formatter) (now : Time) (c : Option lru.Cache) (p : Paste)
    (henc : p.Encrypted = true) : (renderPaste.render F now c p).c = c := by
  rcases hF : F p with ⟨out, _ | err⟩
  · rw [render_of_encrypted F now c p out hF henc]
  · rw [render_of_error F now c p out err hF]

/-! ## The render cache holds plain pastes only -/

theorem onlyPlainKeys_afterLookup (enc : PasteID → Bool) (c : Option lru.Cache)
    (key : PasteID) (h : onlyPlainKeys enc c) : onlyPlainKeys enc (afterLookup c key) := by
  cases c with
  | none => exact h
  | some k =>
    intro k' hk' e he
    have hk : k' = (k.Get key).2 := (Option.some.inj hk').symm
    rw [hk] at he
    exact h k rfl e (lru_Get_mem k key e he)

theorem onlyPlainKeys_render (enc : PasteID → Bool) (F : Formatter) (now : Time)
    (c : Option lru.Cache) (p : Paste) (h : onlyPlainKeys enc c)
    (hp : p.Encrypted = enc p.ID) : onlyPlainKeys enc (renderPaste.render F now c p).c := by
  rcases hF : F p with ⟨out, _ | err⟩
  · cases henc : p.Encrypted
    · rw [render_of_plain F now c p out hF henc]
      intro k hk e he
      have hk' : k = _ := (Option.some.inj hk).symm
      rw [hk'] at he
      rcases lru_Add_mem _ _ _ e he with h1 | h1
      · rw [h1, ← hp, henc]
      · cases c with
        | none => simp at h1
        | some k0 => exact h k0 rfl e h1
    · rw [render_of_encrypted F now c p out hF henc]
      exact h
  · rw [render_of_error F now c p out err hF]
    exact h

theorem onlyPlainKeys_renderPaste (enc : PasteID → Bool) (F : Formatter) (now : Time)
    (c : Option lru.Cache) (p : Paste) (h : onlyPlainKeys enc c)
    (hp : p.Encrypted = enc p.ID) : onlyPlainKeys enc (renderPaste F now c p).c := by
  by_cases hfresh : noFreshEntry c p
  · rw [renderPaste_of_noFreshEntry F now c p hfresh]
    exact onlyPlainKeys_render enc F now _ p (onlyPlainKeys_afterLookup enc c p.ID h) hp
  · unfold noFreshEntry at hfresh
    push_neg at hfresh
    obtain ⟨e, he, hlt⟩ := hfresh
    rw [renderPaste_of_fresh F now c p e he (not_lt.mpr hlt)]
    exact onlyPlainKeys_afterLookup enc c p.ID h

theorem onlyPlainKeys_renderAll (enc : PasteID → Bool) (F : Formatter)
    (calls : List (Time × Paste)) (c : Option lru.Cache) (h : onlyPlainKeys enc c)
    (hcalls : ∀ call ∈ calls, call.2.Encrypted = enc call.2.ID) :
    onlyPlainKeys enc (renderAll F c calls) := by
  induction calls generalizing c with
  | nil => exact h
  | cons call calls ih =>
    exact ih _ (onlyPlainKeys_renderPaste enc F call.1 c call.2 h
        (hcalls call (List.mem_cons_self call calls)))
      (fun d hd => hcalls d (List.mem_cons_of_mem call hd))

theorem cached_eq_none_of_onlyPlainKeys (enc : PasteID → Bool) (c : Option lru.Cache)
    (key : PasteID) (h : onlyPlainKeys enc c) (hkey : enc key = true) :
    cached c key = none := by
  cases c with
  | none => rfl
  | some k =>
    show k.peek key = none
    unfold lru.Cache.peek
    cases hf : List.find? (fun e => decide (e.1 = key)) k.ll with
    | none => rfl
    | some e =>
      have h1 : e.1 = key := by simpa using List.find?_some hf
      have h2 := h k rfl e (List.mem_of_find?_eq_some hf)
      rw [h1, hkey] at h2
      exact Bool.noConfusion h2

/-! ## Grant redemption: the claims -/

/-- C6 fails on the code. The store holds the grant `"k1"`; two requesters
with empty sessions redeem it one after the other. The handler leaves the
store as it is, so the second redemption is answered like the first, with the
redirect 303, not with a refusal, and it credits the edit bit to the second
session. -/
theorem C6_second_redemption_succeeds :
    (grantAcceptHandler (noAccount 32) sampleEdit sampleGrants ⟨"k1", none, none⟩).status = 303
    ∧ (grantAcceptHandler (noAccount 32) sampleEdit sampleGrants
        ⟨"k1", none, some ∅⟩).status = 303
    ∧ ((grantAcceptHandler (noAccount 32) sampleEdit sampleGrants
        ⟨"k1", none, some ∅⟩).v3permissions.bind (fun m => m.lookup "ABCDE")) = some sampleEdit := by
  decide

/-- C7 fails on the code. The grant `"k1"` gives the bit 1 on the paste
`"XYZ"`; its redemption from an empty session leaves no entry for `"XYZ"`
and stores the edit bit for the paste `"ABCDE"`. -/
theorem C7_redemption_ignores_the_grant :
    sampleGrants "k1" = some { ID := "k1", resource := "XYZ", bits := ⟨1, by decide⟩ }
    ∧ (grantAcceptHandler (noAccount 32) sampleEdit sampleGrants ⟨"k1", none, none⟩).status = 303
    ∧ ((grantAcceptHandler (noAccount 32) sampleEdit sampleGrants
        ⟨"k1", none, none⟩).v3permissions.bind (fun m => m.lookup "XYZ")) = none
    ∧ ((grantAcceptHandler (noAccount 32) sampleEdit sampleGrants
        ⟨"k1", none, none⟩).v3permissions.bind (fun m => m.lookup "ABCDE")) = some sampleEdit := by
  decide

/-! ## The render cache: the claims -/

/-- C8. A paste that is not encrypted, formats, and was last modified no later
than the instant `now1` of its first render (a call that finds no fresh
entry): that call and the next one, with the paste unchanged, invoke the
pipeline once in all, and the second returns the body the first stored. When
the paste is then modified after `now1`, the next call invokes the pipeline
again and the entry becomes the new output with its instant. -/
theorem C8_render_once_until_modified (F : Formatter) (c : Option lru.Cache)
    (p q : Paste) (now1 now2 now3 : Time) (out out2 : String)
    (hc : boundOK c) (hfirst : noFreshEntry c p)
    (henc : p.Encrypted = false) (hF : F p = (out, none))
    (hmod : p.ModificationTime ≤ now1)
    (hid : q.ID = p.ID) (hencq : q.Encrypted = false) (hFq : F q = (out2, none))
    (hmodq : now1 < q.ModificationTime) :
    (renderPaste F now1 c p).formatCalls
        + (renderPaste F now2 (renderAll F c [(now1, p)]) p).formatCalls = 1
    ∧ cached (renderAll F c [(now1, p)]) p.ID = some { body := out, renderTime := now1 }
    ∧ (renderPaste F now2 (renderAll F c [(now1, p)]) p).body = out
    ∧ (renderPaste F now3 (renderAll F c [(now1, p), (now2, p)]) q).formatCalls = 1
    ∧ cached (renderAll F c [(now1, p), (now2, p), (now3, q)]) p.ID
        = some { body := out2, renderTime := now3 } := by
  have h1 := renderPaste_stores F now1 c p out hc hfirst hF henc
  have e1 : renderAll F c [(now1, p)] = (renderPaste F now1 c p).c := rfl
  have hfresh : ¬ (({ body := out, renderTime := now1 } : renderedPaste).renderTime
      < p.ModificationTime) := not_lt.mpr hmod
  have h2 := renderPaste_hit F now2 (renderPaste F now1 c p).c p _ h1.2.2.2 h1.2.2.1 hfresh
  have e2 : renderAll F c [(now1, p), (now2, p)]
      = (renderPaste F now2 (renderPaste F now1 c p).c p).c := rfl
  have hstale : noFreshEntry (renderPaste F now2 (renderPaste F now1 c p).c p).c q := by
    intro e he
    rw [hid, h2.2.2.1, h1.2.2.1] at he
    rw [← Option.some.inj he]
    exact hmodq
  have h3 := renderPaste_stores F now3 _ q out2 h2.2.2.2 hstale hFq hencq
  have e3 : renderAll F c [(now1, p), (now2, p), (now3, q)]
      = (renderPaste F now3 (renderPaste F now2 (renderPaste F now1 c p).c p).c q).c := rfl
  rw [e1, e2, e3, h1.1, h2.1, h2.2.1]
  refine ⟨rfl, h1.2.2.1, rfl, h3.1, ?_⟩
  rw [← hid]
  exact h3.2.2.1

/-- Witness of C8: the paste `"a"`, modified at 5, rendered at 10 and 11 on a
nil cache, then modified at 20 and rendered at 30. -/
theorem C8_render_once_until_modified_witness :
    (renderPaste sampleFormat 10 none ⟨"a", 5, false, "text", "hi"⟩).formatCalls
        + (renderPaste sampleFormat 11
            (renderAll sampleFormat none [(10, ⟨"a", 5, false, "text", "hi"⟩)])
            ⟨"a", 5, false, "text", "hi"⟩).formatCalls = 1
    ∧ cached (renderAll sampleFormat none [(10, ⟨"a", 5, false, "text", "hi"⟩)]) "a"
        = some { body := "<pre>hi</pre>", renderTime := 10 }
    ∧ (renderPaste sampleFormat 11
        (renderAll sampleFormat none [(10, ⟨"a", 5, false, "text", "hi"⟩)])
        ⟨"a", 5, false, "text", "hi"⟩).body = "<pre>hi</pre>"
    ∧ (renderPaste sampleFormat 30
        (renderAll sampleFormat none
          [(10, ⟨"a", 5, false, "text", "hi"⟩), (11, ⟨"a", 5, false, "text", "hi"⟩)])
        ⟨"a", 20, false, "text", "ho"⟩).formatCalls = 1
    ∧ cached (renderAll sampleFormat none
          [(10, ⟨"a", 5, false, "text", "hi"⟩), (11, ⟨"a", 5, false, "text", "hi"⟩),
            (30, ⟨"a", 20, false, "text", "ho"⟩)]) "a"
        = some { body := "<pre>ho</pre>", renderTime := 30 } :=
  C8_render_once_until_modified sampleFormat none ⟨"a", 5, false, "text", "hi"⟩
    ⟨"a", 20, false, "text", "ho"⟩ 10 11 30 "<pre>hi</pre>" "<pre>ho</pre>"
    (fun _ h => Option.noConfusion h) (fun _ h => Option.noConfusion h)
    rfl (by decide) (by decide) rfl rfl (by decide) (by decide)

/-- C9, as stated, fails: from a nil cache the paste `"a"` is rendered while
it is not encrypted, then rendered again while it is marked encrypted. The
lookup does not read the mark: the paste encrypted at its render is a key of
the cache, and that render is served the stored body without a pipeline
call. -/
theorem C9_counterexample_mark_changes :
    cached (renderAll sampleFormat none
        [(10, ⟨"a", 5, false, "text", "hi"⟩), (11, ⟨"a", 5, true, "text", "hi"⟩)]) "a"
        = some { body := "<pre>hi</pre>", renderTime := 10 }
    ∧ (renderPaste sampleFormat 11
        (renderAll sampleFormat none [(10, ⟨"a", 5, false, "text", "hi"⟩)])
        ⟨"a", 5, true, "text", "hi"⟩).formatCalls = 0
    ∧ (renderPaste sampleFormat 11
        (renderAll sampleFormat none [(10, ⟨"a", 5, false, "text", "hi"⟩)])
        ⟨"a", 5, true, "text", "hi"⟩).body = "<pre>hi</pre>" := by
  decide

/-- C9, amended. From a nil render cache, after any sequence of `renderPaste`
calls in which the encryption mark of a resource does not change (every paste
carries the mark `enc` of its ID), no encrypted resource is a key of the
cache. In particular `renderPaste` of an encrypted resource is then never
served from the cache: it invokes the pipeline, returns its output when the
pipeline succeeds, and leaves every entry of the cache as it was. -/
theorem C9_encrypted_never_cached (F : Formatter) (enc : PasteID → Bool)
    (calls : List (Time × Paste))
    (hcalls : ∀ call ∈ calls, call.2.Encrypted = enc call.2.ID) :
    (∀ key, enc key = true → cached (renderAll F none calls) key = none)
    ∧ (∀ (now : Time) (p : Paste), p.Encrypted = true → enc p.ID = true →
        (renderPaste F now (renderAll F none calls) p).formatCalls = 1
        ∧ ((F p).2 = none → (renderPaste F now (renderAll F none calls) p).body = (F p).1)
        ∧ ∀ key, cached (renderPaste F now (renderAll F none calls) p).c key
            = cached (renderAll F none calls) key) := by
  have hinv : onlyPlainKeys enc (renderAll F none calls) :=
    onlyPlainKeys_renderAll enc F calls none (fun _ h => Option.noConfusion h) hcalls
  refine ⟨fun key hkey => cached_eq_none_of_onlyPlainKeys enc _ key hinv hkey, ?_⟩
  intro now p hp hencp
  have hnone := cached_eq_none_of_onlyPlainKeys enc _ p.ID hinv hencp
  have hmiss : noFreshEntry (renderAll F none calls) p := by
    intro e he
    rw [hnone] at he
    exact Option.noConfusion he
  rw [renderPaste_of_noFreshEntry F now _ p hmiss]
  refine ⟨render_formatCalls F now _ p, ?_, ?_⟩
  · intro hF
    have hF2 : F p = ((F p).1, none) := by rw [← hF]
    rw [render_of_encrypted F now _ p (F p).1 hF2 hp]
  · intro key
    rw [render_c_of_encrypted F now _ p hp]
    exact cached_afterLookup _ p.ID key

/-- Witness of C9 amended: the plain paste `"a"` and the encrypted paste `"s"`, each
rendered twice. -/
theorem C9_encrypted_never_cached_witness :
    (∀ call ∈ [((10 : Time), (⟨"a", 5, false, "text", "hi"⟩ : Paste)),
        (11, ⟨"s", 5, true, "text", "secret"⟩), (12, ⟨"a", 5, false, "text", "hi"⟩),
        (13, ⟨"s", 5, true, "text", "secret"⟩)],
      call.2.Encrypted = (fun k => decide (k = "s")) call.2.ID)
    ∧ cached (renderAll sampleFormat none
        [(10, ⟨"a", 5, false, "text", "hi"⟩), (11, ⟨"s", 5, true, "text", "secret"⟩),
          (12, ⟨"a", 5, false, "text", "hi"⟩), (13, ⟨"s", 5, true, "text", "secret"⟩)]) "s"
        = none :=
  ⟨by decide,
    (C9_encrypted_never_cached sampleFormat (fun k => decide (k = "s"))
      [(10, ⟨"a", 5, false, "text", "hi"⟩), (11, ⟨"s", 5, true, "text", "secret"⟩),
        (12, ⟨"a", 5, false, "text", "hi"⟩), (13, ⟨"s", 5, true, "text", "secret"⟩)]
      (by decide)).1 "s" (by decide)⟩

/-- C10, as stated, fails: the cache holds a stale entry for the paste `"a"`
(rendered at 1, modified at 5), the pipeline fails, the placeholder is
returned, and the cache still holds that entry for `"a"`. -/
theorem C10_counterexample_stale_entry_stays :
    (sampleFormat ⟨"a", 5, false, "text", ""⟩).2 = some "nothing to format"
    ∧ (renderPaste sampleFormat 10
        sampleStale
        ⟨"a", 5, false, "text", ""⟩).body = renderErrorHTML
    ∧ cached (renderPaste sampleFormat 10
        sampleStale
        ⟨"a", 5, false, "text", ""⟩).c "a"
        = some { body := "<pre>old</pre>", renderTime := 1 } := by
  decide

/-- C10, amended. For every paste and every cache state without a fresh entry
for it, if the pipeline returns an error then `renderPaste` returns the fixed
placeholder and stores nothing: every key has the entry it had before (none
for the paste if it had none, its stale entry otherwise), so that a later
`renderPaste` of the same paste invokes the pipeline again. -/
theorem C10_failed_render_stores_nothing (F : Formatter) (c : Option lru.Cache) (p : Paste)
    (now later : Time) (out err : String) (hmiss : noFreshEntry c p)
    (hF : F p = (out, some err)) :
    (renderPaste F now c p).body = "There was an error rendering this paste."
    ∧ (∀ key, cached (renderPaste F now c p).c key = cached c key)
    ∧ (renderPaste F later (renderPaste F now c p).c p).formatCalls = 1 := by
  have h1 : renderPaste F now c p
      = { body := renderErrorHTML, c := afterLookup c p.ID, formatCalls := 1 } := by
    rw [renderPaste_of_noFreshEntry F now c p hmiss, render_of_error F now _ p out err hF]
  have hsame : ∀ key, cached (renderPaste F now c p).c key = cached c key := by
    intro key
    rw [h1]
    exact cached_afterLookup c p.ID key
  refine ⟨by rw [h1]; rfl, hsame, ?_⟩
  have hmiss2 : noFreshEntry (renderPaste F now c p).c p := by
    intro e he
    rw [hsame] at he
    exact hmiss e he
  rw [renderPaste_of_noFreshEntry F later _ p hmiss2]
  exact render_formatCalls F later _ p

/-- Witness of C10 amended: the stale entry of `"a"` and a pipeline that fails. -/
theorem C10_failed_render_stores_nothing_witness :
    (renderPaste sampleFormat 10
        sampleStale
        ⟨"a", 5, false, "text", ""⟩).body = "There was an error rendering this paste."
    ∧ (∀ key, cached (renderPaste sampleFormat 10
        sampleStale
        ⟨"a", 5, false, "text", ""⟩).c key
        = cached sampleStale key)
    ∧ (renderPaste sampleFormat 20 (renderPaste sampleFormat 10
        sampleStale
        ⟨"a", 5, false, "text", ""⟩).c ⟨"a", 5, false, "text", ""⟩).formatCalls = 1 :=
  C10_failed_render_stores_nothing sampleFormat
    sampleStale
    ⟨"a", 5, false, "text", ""⟩ 10 20 "" "nothing to format"
    (by
      intro e he
      have h : e = { body := "<pre>old</pre>", renderTime := 1 } :=
        (Option.some.inj he).symm
      rw [h]
      decide)
    (by decide)

/-! ## The throttle counter, one call at a time -/

theorem incr32_of_lt (n : Int) (h0 : 0 ≤ n) (h : n + 1 < 2 ^ 31) : incr32 n = n + 1 := by
  unfold incr32
  norm_num at h ⊢
  omega

/-- A call that finds no live entry under the token stores a counter of 1 for
one minute and lets the request through. -/
theorem throttle_fresh (s : EphStore) (t : Time) (ip id : String)
    (h : EphStore.Get s t (ip ++ "|" ++ id) = none) :
    throttleAuthForRequest s t ip id
      = some (false, s.insert (ip ++ "|" ++ id) { value := .counter 1, expiry := t + Minute }) := by
  have h1 : incr32 0 = 1 := by decide
  unfold throttleAuthForRequest
  simp only [h, h1, EphStore.Put, EphStore.setPointee, AList.lookup_insert,
    AList.insert_insert, one_mul]
  simp

/-- A call that finds a live counter `n` adds one to it; from 5 on the request
is throttled and the entry renewed for five minutes. -/
theorem throttle_live (s : EphStore) (t e : Time) (ip id : String) (n : Int)
    (hl : s.lookup (ip ++ "|" ++ id) = some { value := .counter n, expiry := e })
    (ht : t < e) (h0 : 0 ≤ n) (hn : n + 1 < 2 ^ 31) :
    throttleAuthForRequest s t ip id
      = some (decide (5 ≤ n + 1),
          s.insert (ip ++ "|" ++ id)
            { value := .counter (n + 1), expiry := if 5 ≤ n + 1 then t + 5 * Minute else e }) := by
  have hg : EphStore.Get s t (ip ++ "|" ++ id) = some (.counter n) := by
    unfold EphStore.Get
    rw [hl]
    simp [ht]
  unfold throttleAuthForRequest
  simp only [hg, incr32_of_lt n h0 hn, EphStore.Put, EphStore.setPointee, hl,
    AList.insert_insert]
  by_cases h5 : 5 ≤ n + 1
  · simp [h5]
  · simp [h5]

theorem throttleStore_fresh (s : EphStore) (t : Time) (ip id : String)
    (h : EphStore.Get s t (ip ++ "|" ++ id) = none) :
    throttleStore s t ip id
      = s.insert (ip ++ "|" ++ id) { value := .counter 1, expiry := t + Minute } := by
  unfold throttleStore
  rw [throttle_fresh s t ip id h]

theorem throttleStore_live (s : EphStore) (t e : Time) (ip id : String) (n : Int)
    (hl : s.lookup (ip ++ "|" ++ id) = some { value := .counter n, expiry := e })
    (ht : t < e) (h0 : 0 ≤ n) (hn : n + 1 < 2 ^ 31) :
    throttleStore s t ip id
      = s.insert (ip ++ "|" ++ id)
          { value := .counter (n + 1), expiry := if 5 ≤ n + 1 then t + 5 * Minute else e } := by
  unfold throttleStore
  rw [throttle_live s t e ip id n hl ht h0 hn]

theorem lt_expiry_of_Get_isSome (s : EphStore) (t e : Time) (key : String) (v : EphValue)
    (hl : s.lookup key = some { value := v, expiry := e })
    (h : (EphStore.Get s t key).isSome = true) : t < e := by
  unfold EphStore.Get at h
  rw [hl] at h
  by_contra hc
  simp [hc] at h

/-! ## The throttle counter along a run -/

/-- A run that starts on a live counter `k` and never finds it expired: the
call number `i + 1` of the run returns true exactly when `5 ≤ k + 1 + i`, and
the run leaves the counter `k` plus its length, renewed by the last call when
that counter is at least 5. -/
theorem throttleRun_live (ip id : String) :
    ∀ (ts : List Time) (s : EphStore) (k : Nat) (e t0 : Time),
      s.lookup (ip ++ "|" ++ id) = some { value := .counter k, expiry := e } →
      k + ts.length < 2 ^ 31 →
      counterAlive s ip id ts = true →
      throttleRun s ip id ts
          = some ((List.range ts.length).map (fun i => decide (5 ≤ k + 1 + i)))
      ∧ (throttleStores s ip id ts).lookup (ip ++ "|" ++ id)
          = some { value := .counter ((k + ts.length : Nat) : Int),
                   expiry := if 5 ≤ k + ts.length ∧ ts ≠ [] then ts.getLastD t0 + 5 * Minute
                             else e } := by
  intro ts
  induction ts with
  | nil =>
    intro s k e t0 hl _ _
    refine ⟨rfl, ?_⟩
    simpa [throttleStores] using hl
  | cons t ts ih =>
    intro s k e t0 hl hk halive
    simp only [counterAlive, Bool.and_eq_true] at halive
    have hlen : (t :: ts).length = ts.length + 1 := rfl
    rw [hlen] at hk
    have ht : t < e := lt_expiry_of_Get_isSome s t e _ _ hl halive.1
    have h0 : (0 : Int) ≤ (k : Int) := Int.ofNat_nonneg k
    have hn : (k : Int) + 1 < 2 ^ 31 := by
      have : k + 1 < 2 ^ 31 := by omega
      exact_mod_cast this
    have hstep := throttle_live s t e ip id k hl ht h0 hn
    have hstore := throttleStore_live s t e ip id k hl ht h0 hn
    have hl' : (throttleStore s t ip id).lookup (ip ++ "|" ++ id)
        = some { value := .counter ((k + 1 : Nat) : Int),
                 expiry := if 5 ≤ (k : Int) + 1 then t + 5 * Minute else e } := by
      rw [hstore, AList.lookup_insert]
      simp
    have halive' : counterAlive (throttleStore s t ip id) ip id ts = true := halive.2
    obtain ⟨ih1, ih2⟩ := ih (throttleStore s t ip id) (k + 1) _ t hl' (by omega) halive'
    constructor
    · have hrun : throttleRun s ip id (t :: ts)
          = (throttleRun (throttleStore s t ip id) ip id ts).map
              (fun bs => decide (5 ≤ (k : Int) + 1) :: bs) := by
        rw [hstore]
        show (match throttleAuthForRequest s t ip id with
          | none => none
          | some r => (throttleRun r.2 ip id ts).map (fun bs => r.1 :: bs)) = _
        rw [hstep]
      rw [hrun, ih1, hlen, List.range_succ_eq_map]
      simp only [Option.map_some', List.map_cons, List.map_map]
      congr 2
      · simp only [Nat.add_zero]
        exact decide_eq_decide.mpr (by omega)
      · apply List.map_congr_left
        intro i _
        simp only [Function.comp]
        exact decide_eq_decide.mpr (by omega)
    · show (throttleStores (throttleStore s t ip id) ip id ts).lookup (ip ++ "|" ++ id) = _
      rw [ih2, hlen, List.getLastD_cons]
      have hc : ((k + 1 + ts.length : Nat) : Int) = ((k + (ts.length + 1) : Nat) : Int) := by
        push_cast
        ring
      rw [hc]
      congr 2
      by_cases hts : ts = []
      · subst hts
        simp only [List.length_nil, Nat.add_zero, ne_eq, not_true_eq_false, and_false,
          if_false, List.cons_ne_nil, not_false_eq_true, and_true, List.getLastD_nil]
        by_cases h5 : 5 ≤ k + 1
        · have h5' : (5 : Int) ≤ (k : Int) + 1 := by exact_mod_cast h5
          simp [h5, h5']
        · have h5' : ¬ (5 : Int) ≤ (k : Int) + 1 := by
            intro hc'
            apply h5
            exact_mod_cast hc'
          simp [h5, h5']
      · by_cases h5 : 5 ≤ k + (ts.length + 1)
        · have h5a : 5 ≤ k + 1 + ts.length := by omega
          simp [h5, h5a, hts]
        · have h5a : ¬ 5 ≤ k + 1 + ts.length := by omega
          have h5b : ¬ (5 : Int) ≤ (k : Int) + 1 := by
            intro hc'
            have : 5 ≤ k + 1 := by exact_mod_cast hc'
            omega
          simp [h5, h5a, h5b]

theorem throttleStore_lookup_live (s : EphStore) (t e : Time) (ip id : String) (n : Int)
    (hl : s.lookup (ip ++ "|" ++ id) = some { value := .counter n, expiry := e })
    (ht : t < e) (h0 : 0 ≤ n) (hn : n + 1 < 2 ^ 31) :
    (throttleStore s t ip id).lookup (ip ++ "|" ++ id)
      = some { value := .counter (n + 1),
               expiry := if 5 ≤ n + 1 then t + 5 * Minute else e } := by
  rw [throttleStore_live s t e ip id n hl ht h0 hn, AList.lookup_insert]

theorem handler_store (s : EphStore) (t : Time) (r : AuthRequest) :
    (authenticatePastePOSTHandler s t r).2 = throttleStore s t r.ip r.id := by
  unfold authenticatePastePOSTHandler throttleStore
  rcases h : throttleAuthForRequest s t r.ip r.id with _ | ⟨b, s'⟩
  · rfl
  · cases b
    · cases hd : r.destination <;> simp [hd]
    · rfl

theorem authAttempts_eq_throttleStores (ip id : String) :
    ∀ (attempts : List (Time × AuthRequest)) (s : EphStore),
      (∀ a ∈ attempts, a.2.ip = ip ∧ a.2.id = id) →
      authAttempts s attempts = throttleStores s ip id (attempts.map Prod.fst) := by
  intro attempts
  induction attempts with
  | nil => intro s _; rfl
  | cons a rest ih =>
    intro s h
    have ha := h a (List.mem_cons_self a rest)
    show authAttempts (authenticatePastePOSTHandler s a.1 a.2).2 rest = _
    rw [handler_store, ha.1, ha.2, ih _ (fun b hb => h b (List.mem_cons_of_mem a hb))]
    rfl

/-! ## The authentication throttle: the claims -/

/-- C13. For a source address and resource id without a stored counter, in a
run of consecutive calls that never find the counter expired, the call number
`n` (below `2 ^ 31`, the counter being an `int32`) returns true exactly when
`5 ≤ n`; the run leaves the counter at the number of calls, and from the 5th
call on the entry expires five minutes after the last call. -/
theorem C13_exact_throttle_threshold (s : EphStore) (ip id : String) (t1 : Time)
    (ts : List Time)
    (hfresh : EphStore.Get s t1 (ip ++ "|" ++ id) = none)
    (halive : counterAlive (throttleStore s t1 ip id) ip id ts = true)
    (hn : ts.length + 1 < 2 ^ 31) :
    throttleRun s ip id (t1 :: ts)
        = some ((List.range (ts.length + 1)).map (fun i => decide (5 ≤ i + 1)))
    ∧ (throttleStores s ip id (t1 :: ts)).lookup (ip ++ "|" ++ id)
        = some { value := .counter ((ts.length + 1 : Nat) : Int),
                 expiry := if 5 ≤ ts.length + 1 then ts.getLastD t1 + 5 * Minute
                           else t1 + Minute } := by
  have hstore := throttleStore_fresh s t1 ip id hfresh
  have hl1 : (throttleStore s t1 ip id).lookup (ip ++ "|" ++ id)
      = some { value := .counter ((1 : Nat) : Int), expiry := t1 + Minute } := by
    rw [hstore, AList.lookup_insert]
    rfl
  obtain ⟨r1, r2⟩ := throttleRun_live ip id ts (throttleStore s t1 ip id) 1 (t1 + Minute) t1
    hl1 (by omega) halive
  constructor
  · have hrun : throttleRun s ip id (t1 :: ts)
        = (throttleRun (throttleStore s t1 ip id) ip id ts).map (fun bs => false :: bs) := by
      rw [hstore]
      show (match throttleAuthForRequest s t1 ip id with
        | none => none
        | some r => (throttleRun r.2 ip id ts).map (fun bs => r.1 :: bs)) = _
      rw [throttle_fresh s t1 ip id hfresh]
    rw [hrun, r1, List.range_succ_eq_map]
    simp only [Option.map_some', List.map_cons, List.map_map]
    congr 2
    apply List.map_congr_left
    intro i _
    simp only [Function.comp]
    exact decide_eq_decide.mpr (by omega)
  · show (throttleStores (throttleStore s t1 ip id) ip id ts).lookup (ip ++ "|" ++ id) = _
    rw [r2]
    have hc : ((1 + ts.length : Nat) : Int) = ((ts.length + 1 : Nat) : Int) := by
      push_cast
      ring
    rw [hc]
    congr 2
    by_cases h5 : 5 ≤ ts.length + 1
    · have h5a : 5 ≤ 1 + ts.length := by omega
      have hts : ts ≠ [] := by
        intro h
        rw [h] at h5
        simp at h5
      simp [h5, h5a, hts]
    · have h5a : ¬ 5 ≤ 1 + ts.length := by omega
      simp [h5, h5a]

/-- Witness of C13: six calls, one nanosecond apart, on an empty store. -/
theorem C13_exact_throttle_threshold_witness :
    throttleRun ∅ "10.0.0.1" "abc" [0, 1, 2, 3, 4, 5]
      = some [false, false, false, false, true, true] :=
  (C13_exact_throttle_threshold ∅ "10.0.0.1" "abc" 0 [1, 2, 3, 4, 5]
    (by decide) (by decide) (by norm_num)).1

/-- C11. A source address and resource id without a stored counter make five
authentication attempts, the later four within the minute the counter lives
from the first. A 6th attempt within five minutes of the 5th is throttled:
`throttleAuthForRequest` returns true and the handler answers 420 with the
throttle error, a response in which the password does not occur, the session
passphrases being left as they were. When five minutes have passed since that
attempt, the entry has expired and the next attempt is let through: its
password is stored in the session. -/
theorem C11_sixth_attempt_throttled (s : EphStore) (ip id : String)
    (t1 t2 t3 t4 t5 t6 t7 : Time) (r1 r2 r3 r4 r5 r6 r7 : AuthRequest)
    (hr : ∀ r ∈ [r1, r2, r3, r4, r5, r6, r7], r.ip = ip ∧ r.id = id)
    (hfresh : EphStore.Get s t1 (ip ++ "|" ++ id) = none)
    (hwindow : ∀ t ∈ [t2, t3, t4, t5], t < t1 + 1 * Minute)
    (hsixth : t6 < t5 + 5 * Minute)
    (hcool : t6 + 5 * Minute ≤ t7) :
    (throttleAuthForRequest
        (authAttempts s [(t1, r1), (t2, r2), (t3, r3), (t4, r4), (t5, r5)]) t6 ip id).map
        Prod.fst = some true
    ∧ (authenticatePastePOSTHandler
        (authAttempts s [(t1, r1), (t2, r2), (t3, r3), (t4, r4), (t5, r5)]) t6 r6).1
        = { status := some 420, error := some "Cool it.", location := none,
            paste_passphrases := r6.paste_passphrases, sessionSaved := false,
            panicked := false }
    ∧ EphStore.Get
        (authAttempts s [(t1, r1), (t2, r2), (t3, r3), (t4, r4), (t5, r5), (t6, r6)]) t7
        (ip ++ "|" ++ id) = none
    ∧ (throttleAuthForRequest
        (authAttempts s [(t1, r1), (t2, r2), (t3, r3), (t4, r4), (t5, r5), (t6, r6)])
        t7 ip id).map Prod.fst = some false
    ∧ (authenticatePastePOSTHandler
        (authAttempts s [(t1, r1), (t2, r2), (t3, r3), (t4, r4), (t5, r5), (t6, r6)])
        t7 r7).1.paste_passphrases
        = some ((r7.paste_passphrases.getD ∅).insert id r7.password) := by
  have hr6 := hr r6 (by simp)
  have hr7 := hr r7 (by simp)
  have ht2 := hwindow t2 (by simp)
  have ht3 := hwindow t3 (by simp)
  have ht4 := hwindow t4 (by simp)
  have ht5 := hwindow t5 (by simp)
  rw [one_mul] at ht2 ht3 ht4 ht5
  have e5 : authAttempts s [(t1, r1), (t2, r2), (t3, r3), (t4, r4), (t5, r5)]
      = throttleStores s ip id [t1, t2, t3, t4, t5] :=
    authAttempts_eq_throttleStores ip id _ s (by
      intro a ha
      simp only [List.mem_cons, List.mem_singleton, List.not_mem_nil, or_false] at ha
      rcases ha with rfl | rfl | rfl | rfl | rfl <;> exact hr _ (by simp))
  have e6 : authAttempts s [(t1, r1), (t2, r2), (t3, r3), (t4, r4), (t5, r5), (t6, r6)]
      = throttleStores s ip id [t1, t2, t3, t4, t5, t6] :=
    authAttempts_eq_throttleStores ip id _ s (by
      intro a ha
      simp only [List.mem_cons, List.mem_singleton, List.not_mem_nil, or_false] at ha
      rcases ha with rfl | rfl | rfl | rfl | rfl | rfl <;> exact hr _ (by simp))
  have l1 : (throttleStores s ip id [t1]).lookup (ip ++ "|" ++ id)
      = some { value := .counter 1, expiry := t1 + Minute } := by
    show (throttleStore s t1 ip id).lookup (ip ++ "|" ++ id) = _
    rw [throttleStore_fresh s t1 ip id hfresh, AList.lookup_insert]
  have l2 : (throttleStores s ip id [t1, t2]).lookup (ip ++ "|" ++ id)
      = some { value := .counter 2, expiry := t1 + Minute } := by
    have h := throttleStore_lookup_live _ t2 _ ip id 1 l1 ht2 (by norm_num) (by norm_num)
    simpa using h
  have l3 : (throttleStores s ip id [t1, t2, t3]).lookup (ip ++ "|" ++ id)
      = some { value := .counter 3, expiry := t1 + Minute } := by
    have h := throttleStore_lookup_live _ t3 _ ip id 2 l2 ht3 (by norm_num) (by norm_num)
    simpa using h
  have l4 : (throttleStores s ip id [t1, t2, t3, t4]).lookup (ip ++ "|" ++ id)
      = some { value := .counter 4, expiry := t1 + Minute } := by
    have h := throttleStore_lookup_live _ t4 _ ip id 3 l3 ht4 (by norm_num) (by norm_num)
    simpa using h
  have l5 : (throttleStores s ip id [t1, t2, t3, t4, t5]).lookup (ip ++ "|" ++ id)
      = some { value := .counter 5, expiry := t5 + 5 * Minute } := by
    have h := throttleStore_lookup_live _ t5 _ ip id 4 l4 ht5 (by norm_num) (by norm_num)
    simpa using h
  have l6 : (throttleStores s ip id [t1, t2, t3, t4, t5, t6]).lookup (ip ++ "|" ++ id)
      = some { value := .counter 6, expiry := t6 + 5 * Minute } := by
    have h := throttleStore_lookup_live _ t6 _ ip id 5 l5 hsixth (by norm_num) (by norm_num)
    simpa using h
  have th6 := throttle_live _ t6 _ ip id 5 l5 hsixth (by norm_num) (by norm_num)
  have g7 : EphStore.Get (throttleStores s ip id [t1, t2, t3, t4, t5, t6]) t7
      (ip ++ "|" ++ id) = none := by
    unfold EphStore.Get
    rw [l6]
    simp [not_lt.mpr hcool]
  have th7 := throttle_fresh _ t7 ip id g7
  rw [e5, e6]
  refine ⟨?_, ?_, g7, ?_, ?_⟩
  · rw [th6]
    simp
  · unfold authenticatePastePOSTHandler
    rw [hr6.1, hr6.2, th6]
    simp
  · rw [th7]
    rfl
  · unfold authenticatePastePOSTHandler
    rw [hr7.1, hr7.2, th7]
    cases hd : r7.destination <;> simp [hd]

/-- Witness of C11: seven attempts on an empty store, the first six one second
apart and the seventh five minutes after the sixth. -/
theorem C11_sixth_attempt_throttled_witness :
    (authenticatePastePOSTHandler
        (authAttempts ∅
          [(0, ⟨"10.0.0.1", "abc", "a", none, none⟩),
            (1000000000, ⟨"10.0.0.1", "abc", "b", none, none⟩),
            (2000000000, ⟨"10.0.0.1", "abc", "c", none, none⟩),
            (3000000000, ⟨"10.0.0.1", "abc", "d", none, none⟩),
            (4000000000, ⟨"10.0.0.1", "abc", "e", none, none⟩)])
        5000000000 ⟨"10.0.0.1", "abc", "f", none, none⟩).1.status = some 420 :=
  congrArg AuthResponse.status
    (C11_sixth_attempt_throttled ∅ "10.0.0.1" "abc"
      0 1000000000 2000000000 3000000000 4000000000 5000000000 305000000000
      ⟨"10.0.0.1", "abc", "a", none, none⟩ ⟨"10.0.0.1", "abc", "b", none, none⟩
      ⟨"10.0.0.1", "abc", "c", none, none⟩ ⟨"10.0.0.1", "abc", "d", none, none⟩
      ⟨"10.0.0.1", "abc", "e", none, none⟩ ⟨"10.0.0.1", "abc", "f", none, none⟩
      ⟨"10.0.0.1", "abc", "g", none, none⟩
      (by
        intro r hr
        simp only [List.mem_cons, List.mem_singleton, List.not_mem_nil, or_false] at hr
        rcases hr with rfl | rfl | rfl | rfl | rfl | rfl | rfl <;> exact ⟨rfl, rfl⟩)
      (by decide)
      (by
        intro t ht
        simp only [List.mem_cons, List.mem_singleton, List.not_mem_nil, or_false] at ht
        rcases ht with rfl | rfl | rfl | rfl <;> decide)
      (by decide) (by decide)).2.1

/-! ## Validation in the paste handlers -/

theorem pasteUpdateCore_of_valid {w : Nat} {U : Type} (K : Collaborators) (now : Time)
    (W : World w U) (p : Paste) (f : PasteForm) (newPaste : Bool)
    (hblank : len (K.TrimSpace f.text) ≠ 0) (hlen : ¬ len f.text > PASTE_MAXIMUM_LENGTH) :
    (pasteUpdateCore K now W p f newPaste).1 = .redirect 303 "show" p.ID := by
  unfold pasteUpdateCore
  rw [if_neg hblank, if_neg hlen]

theorem pasteCreate_finish_of_valid {w : Nat} {U : Type} (K : Collaborators)
    (S : PermissionScope w U) (all : Permission w) (now : Time) (W : World w U) (p : Paste)
    (f : PasteForm) (hblank : len (K.TrimSpace f.text) ≠ 0)
    (hlen : ¬ len f.text > PASTE_MAXIMUM_LENGTH) :
    (pasteCreate.finish K S all now W p f).1 = .redirect 303 "show" p.ID := by
  unfold pasteCreate.finish
  exact pasteUpdateCore_of_valid K now _ p f true hblank hlen

/-- A body that passes the two checks is never answered with
`PasteTooLargeError` by `pasteCreate`. -/
theorem pasteCreate_of_valid {w : Nat} {U : Type} (K : Collaborators)
    (S : PermissionScope w U) (all : Permission w) (now : Time) (W : World w U)
    (f : PasteForm) (hblank : len (K.TrimSpace f.text) ≠ 0)
    (hlen : ¬ len f.text > PASTE_MAXIMUM_LENGTH) (n st : Nat) :
    (pasteCreate K S all now W f).1 ≠ .rendered (.PasteTooLargeError n) st
    ∧ (pasteCreate K S all now W f).1 ≠ .panicked (.PasteTooLargeError n) := by
  unfold pasteCreate
  rw [if_neg hblank, if_neg hlen]
  split
  · exact ⟨by simp, by simp⟩
  · split
    · split
      · rw [pasteUpdateCore_of_valid K now W _ f true hblank hlen]
        exact ⟨by simp, by simp⟩
      · split
        · exact ⟨by simp, by simp⟩
        · rw [pasteCreate_finish_of_valid K S all now _ _ f hblank hlen]
          exact ⟨by simp, by simp⟩
    · split
      · exact ⟨by simp, by simp⟩
      · rw [pasteCreate_finish_of_valid K S all now _ _ f hblank hlen]
        exact ⟨by simp, by simp⟩

theorem len_replicate_a (n : Nat) : len (String.mk (List.replicate n 'a')) = n := by
  unfold len
  induction n with
  | zero => rfl
  | succ n ih =>
    rw [List.replicate_succ, String.utf8ByteSize_mk, String.utf8Len_cons,
      ← String.utf8ByteSize_mk, ih]
    rfl

theorem sampleTrimSpace_replicate_a (n : Nat) :
    sampleCollaborators.TrimSpace (String.mk (List.replicate (n + 1) 'a'))
      = String.mk (List.replicate (n + 1) 'a') := by
  have hd : ∀ m : Nat, List.dropWhile Char.isWhitespace (List.replicate (m + 1) 'a')
      = List.replicate (m + 1) 'a' := by
    intro m
    rw [List.replicate_succ]
    exact List.dropWhile_cons_of_neg (by decide)
  show String.mk (((List.dropWhile Char.isWhitespace (List.replicate (n + 1) 'a')).reverse.dropWhile
    Char.isWhitespace).reverse) = _
  rw [hd, List.reverse_replicate, hd, List.reverse_replicate]

/-! ## Validation in the paste handlers: the claim -/

/-- C12. A body that is empty after trimming, or longer than 1,048,576 bytes:
`pasteCreate` answers with status 400 and `pasteUpdateCore` stops (a redirect
for the empty body, a panic with `PasteTooLargeError` for the long one), and
both leave the world as it was: no paste created or written, the ephemeral
store and the permission scopes untouched. A body of exactly 1,048,576 bytes
that is not empty after trimming is not answered with `PasteTooLargeError`:
`pasteUpdateCore` goes on to write the paste. -/
theorem C12_validation_precedes_mutation {w : Nat} {U : Type} (K : Collaborators)
    (S : PermissionScope w U) (all : Permission w) (now : Time) (W : World w U)
    (p : Paste) (f : PasteForm) (newPaste : Bool)
    (h : len (K.TrimSpace f.text) = 0 ∨ 1048576 < len f.text) :
    ((pasteCreate K S all now W f).2 = W
      ∧ (pasteCreate K S all now W f).1
          = .rendered
              (if len (K.TrimSpace f.text) = 0 then .message "Hey, put some text in that paste."
               else .PasteTooLargeError (len f.text)) 400
      ∧ (pasteUpdateCore K now W p f newPaste).2 = W
      ∧ (pasteUpdateCore K now W p f newPaste).1
          = if len (K.TrimSpace f.text) = 0 then .redirect 302 "delete" p.ID
            else .panicked (.PasteTooLargeError (len f.text)))
    ∧ ∀ g : PasteForm, len g.text = 1048576 → len (K.TrimSpace g.text) ≠ 0 →
        (∀ n st, (pasteCreate K S all now W g).1 ≠ .rendered (.PasteTooLargeError n) st
          ∧ (pasteCreate K S all now W g).1 ≠ .panicked (.PasteTooLargeError n))
        ∧ (pasteUpdateCore K now W p g newPaste).1 = .redirect 303 "show" p.ID := by
  constructor
  · by_cases hblank : len (K.TrimSpace f.text) = 0
    · unfold pasteCreate pasteUpdateCore
      simp [hblank]
    · have hlen : len f.text > PASTE_MAXIMUM_LENGTH := by
        rcases h with h | h
        · exact absurd h hblank
        · exact h
      unfold pasteCreate pasteUpdateCore
      simp [hblank, hlen]
  · intro g hg hblank
    have hlen : ¬ len g.text > PASTE_MAXIMUM_LENGTH := by
      rw [hg]
      decide
    exact ⟨fun n st => pasteCreate_of_valid K S all now W g hblank hlen n st,
      pasteUpdateCore_of_valid K now W p g newPaste hblank hlen⟩

/-- Witness of C12: a body of white space leaves the world as it was, and a
body of 1,048,576 letters is written by `pasteUpdateCore`. -/
theorem C12_validation_precedes_mutation_witness :
    (pasteCreate sampleCollaborators (noAccount 32) sampleEdit 0 sampleWorld
        ⟨" \n", "", "", "", "", "10.0.0.1", true⟩).2 = sampleWorld
    ∧ (pasteUpdateCore sampleCollaborators 0 sampleWorld ⟨"a", 0, false, "text", ""⟩
        ⟨String.mk (List.replicate 1048576 'a'), "", "", "", "", "10.0.0.1", true⟩ false).1
        = .redirect 303 "show" "a" :=
  ⟨(C12_validation_precedes_mutation sampleCollaborators (noAccount 32) sampleEdit 0
      sampleWorld ⟨"a", 0, false, "text", ""⟩ ⟨" \n", "", "", "", "", "10.0.0.1", true⟩ false
      (Or.inl (by decide))).1.1,
    ((C12_validation_precedes_mutation sampleCollaborators (noAccount 32) sampleEdit 0
      sampleWorld ⟨"a", 0, false, "text", ""⟩ ⟨" \n", "", "", "", "", "10.0.0.1", true⟩ false
      (Or.inl (by decide))).2
      ⟨String.mk (List.replicate 1048576 'a'), "", "", "", "", "10.0.0.1", true⟩
      (len_replicate_a 1048576)
      (by
        show len (sampleCollaborators.TrimSpace (String.mk (List.replicate (1048575 + 1) 'a')))
          ≠ 0
        rw [sampleTrimSpace_replicate_a, len_replicate_a]
        decide)).2⟩

end Ghostbin
